import Mathlib

/-!
Shallow embedding of the `agent_market_sim` Anchor program
(`src/anchor-programs/programs/anchor-programs/src`): the state records of
`state/mod.rs`, the error conditions (the program's `errors.rs` codes plus
the failure conditions that Anchor account validation and the SPL token
program raise), and the instruction handlers.

Modelling conventions:
* `Pubkey` is `Nat`; program-derived addresses are computed by an
  injective encoding of the seed list with the bump byte appended (the
  deterministic `Derive` collaborator).
* SPL token accounts are `(mint, owner, amount)` records; `transfer`
  requires the authorizer to be the source account's authority and
  sufficient funds, as the SPL token program does.  An authorizer is
  either a transaction signer (`CpiContext::new`) or a PDA derivation
  proof given as signer seeds (`CpiContext::new_with_signer`).
* An instruction is a function into `Except Err …`; the host runtime
  commits the returned state only on `ok` and reverts the whole unit of
  work on `error`, so the observable post-state of a call is the `ok`
  state, or the pre-state on failure (whole-transaction atomicity is a
  host guarantee).
* Anchor checks the `#[derive(Accounts)]` constraints in field
  declaration order before the handler body runs; the check chains below
  follow that order.
-/

namespace AgentMarketSim

/-- Account addresses / public keys, modelled as naturals. -/
abbrev Pubkey := Nat

/-- Tag standing for the seed byte-string `b"vault"`. -/
def seedVault : Nat := 0
/-- Tag standing for the seed byte-string `b"market"`. -/
def seedMarket : Nat := 1
/-- Tag standing for the seed byte-string `b"trade"`. -/
def seedTrade : Nat := 2
/-- Tag standing for the seed byte-string `b"agent"`. -/
def seedAgent : Nat := 3

/-- Injective encoding of a seed list into a number. -/
def encodeList : List Nat → Nat
  | [] => 0
  | x :: xs => Nat.pair x (encodeList xs) + 1

/-- The bump byte chosen by `find_program_address` at account creation. -/
def canonicalBump : Nat := 255

/-- Deterministic address derivation from a seed tuple plus bump byte. -/
def pdaAddr (seeds : List Nat) (bump : Nat) : Pubkey :=
  encodeList (seeds ++ [bump])

/-- Seeds `[b"vault", token_a, token_b, mint]` used for every `Vault`. -/
def vaultSeeds (tokenA tokenB mint : Pubkey) : List Nat :=
  [seedVault, tokenA, tokenB, mint]

/-- Seeds `[b"market", token_a, token_b]` of a `Market`. -/
def marketSeeds (tokenA tokenB : Pubkey) : List Nat :=
  [seedMarket, tokenA, tokenB]

/-- Seeds `[b"trade", agent, market]` of a `Trade` (`place_trade.rs`). -/
def tradeSeeds (agent market : Pubkey) : List Nat :=
  [seedTrade, agent, market]

/-- Seeds `[b"agent", user]` of an `Agent` (`register_agent.rs`). -/
def agentSeeds (user : Pubkey) : List Nat :=
  [seedAgent, user]

/-- `Market` account (`state/mod.rs`). -/
structure Market where
  token_a : Pubkey
  token_b : Pubkey
  bump : Nat
  deriving DecidableEq, Repr

/-- `Agent` account (`state/mod.rs`). -/
structure Agent where
  owner : Pubkey
  bump : Nat
  deriving DecidableEq, Repr

/-- `Trade` account (`state/mod.rs`).  Its declared fields are `amount`
and `price`; `execute_trade.rs` reads `trade.amount_in` and
`trade.amount_out`, fields this struct does not declare — see
`execute_trade` below. -/
structure Trade where
  agent : Pubkey
  market : Pubkey
  trade_type : Nat
  amount : Nat
  price : Nat
  bump : Nat
  deriving DecidableEq, Repr

/-- `Vault` account (`state/mod.rs`). -/
structure Vault where
  market : Pubkey
  token : Pubkey
  bump : Nat
  deriving DecidableEq, Repr

/-- Failure conditions: the six program error codes of `errors.rs`,
followed by the conditions raised by Anchor account validation, account
resolution, and the SPL token program. -/
inductive Err where
  | Unauthorized
  | InvalidVault
  | InvalidTokenMint
  | InvalidTradeType
  | InvalidTokenAccounts
  | InvalidAgentOwner
  | ConstraintHasOne
  | ConstraintSeeds
  | ConstraintTokenMint
  | ConstraintTokenOwner
  | ConstraintAssociated
  | ConstraintViolated
  | AccountNotInitialized
  | AccountAlreadyInitialized
  | MissingSignature
  | InsufficientFunds
  deriving DecidableEq, Repr

/-- An SPL token account: its mint, its authority, and its balance. -/
structure TokenAccount where
  mint : Pubkey
  owner : Pubkey
  amount : Nat
  deriving DecidableEq, Repr

/-- The authorizer of a token transfer: either a transaction signer
(`CpiContext::new`) or a PDA derivation proof supplied as signer seeds
(`CpiContext::new_with_signer`). -/
inductive Authorizer where
  | signer (key : Pubkey)
  | pda (seeds : List Nat) (bump : Nat)
  deriving DecidableEq, Repr

/-- The key an authorizer proves control of; for a PDA proof it is the
address derived from the supplied seed tuple and bump byte, so a proof
with any other seed tuple or bump authorizes a different address. -/
def Authorizer.key : Authorizer → Pubkey
  | .signer k => k
  | .pda seeds bump => pdaAddr seeds bump

/-- SPL `token::transfer`: the authorizer must be the source account's
authority and the source must hold at least `amount`; on success exactly
`amount` moves from source to destination, and on failure both accounts
are unchanged. -/
def transfer (src dst : TokenAccount) (auth : Authorizer) (amount : Nat) :
    Except Err (TokenAccount × TokenAccount) :=
  if auth.key ≠ src.owner then .error .MissingSignature
  else if src.amount < amount then .error .InsufficientFunds
  else .ok ({ src with amount := src.amount - amount },
            { dst with amount := dst.amount + amount })

/-- The accounts of `ExecuteTrade` (`execute_trade.rs`), after
deserialization; each program-owned account comes with its address. -/
structure ExecuteTradeAccounts where
  trade : Trade
  tradeAddr : Pubkey
  market : Market
  marketAddr : Pubkey
  agent : Agent
  agentAddr : Pubkey
  /-- the transaction signer (`user : Signer`). -/
  user : Pubkey
  token_in_mint : Pubkey
  token_out_mint : Pubkey
  user_token_account_in : TokenAccount
  user_token_account_out : TokenAccount
  vault_in : Vault
  vault_inAddr : Pubkey
  vault_token_account_in : TokenAccount
  vault_out : Vault
  vault_outAddr : Pubkey
  vault_token_account_out : TokenAccount
  deriving DecidableEq, Repr

/-- Anchor account validation for `ExecuteTrade`, in declaration order:
`trade` carries `has_one = agent` and `close = user`;
`user_token_account_in` carries `token::mint` / `token::authority = user`;
`user_token_account_out` carries `associated_token::mint` /
`associated_token::authority = user`; each vault carries its
`seeds`/`bump` derivation, `has_one = market`, and the custodied-token
constraint (written `has_one = token_in_mint` resp. `token_out_mint` in
the source, whose `Vault` field is named `token`); each vault custody
account carries `associated_token::mint` and
`associated_token::authority` = the vault.  No constraint relates `user`
to `agent.owner`. -/
def executeTradeAccountsValid (a : ExecuteTradeAccounts) : Bool :=
  a.trade.agent == a.agentAddr &&
  a.user_token_account_in.mint == a.token_in_mint &&
  a.user_token_account_in.owner == a.user &&
  a.user_token_account_out.mint == a.token_out_mint &&
  a.user_token_account_out.owner == a.user &&
  a.vault_inAddr == pdaAddr (vaultSeeds a.market.token_a a.market.token_b a.token_in_mint) a.vault_in.bump &&
  a.vault_in.market == a.marketAddr &&
  a.vault_in.token == a.token_in_mint &&
  a.vault_token_account_in.mint == a.token_in_mint &&
  a.vault_token_account_in.owner == a.vault_inAddr &&
  a.vault_outAddr == pdaAddr (vaultSeeds a.market.token_a a.market.token_b a.token_out_mint) a.vault_out.bump &&
  a.vault_out.market == a.marketAddr &&
  a.vault_out.token == a.token_out_mint &&
  a.vault_token_account_out.mint == a.token_out_mint &&
  a.vault_token_account_out.owner == a.vault_outAddr

/-- The state touched by `execute_trade`: the four token accounts,
whether the `Trade` account is still live, and the recipient of its rent
once closed (`close = user`). -/
structure ExecState where
  user_in : TokenAccount
  user_out : TokenAccount
  vault_in : TokenAccount
  vault_out : TokenAccount
  tradeLive : Bool
  rentTo : Option Pubkey
  deriving DecidableEq, Repr

/-- The state as presented to the call, before any effect. -/
def preExecState (a : ExecuteTradeAccounts) : ExecState :=
  { user_in := a.user_token_account_in,
    user_out := a.user_token_account_out,
    vault_in := a.vault_token_account_in,
    vault_out := a.vault_token_account_out,
    tradeLive := true,
    rentTo := none }

/-- Lines 95–99 of `execute_trade.rs`: resolve `(token_in, token_out)`
from the market pair and `trade.trade_type` — `0` buys token B with
token A, anything else takes the `else` (sell) branch. -/
def resolvedPair (a : ExecuteTradeAccounts) : Pubkey × Pubkey :=
  if a.trade.trade_type = 0 then (a.market.token_a, a.market.token_b)
  else (a.market.token_b, a.market.token_a)

/-- `execute_trade` (`execute_trade.rs`): Anchor validates the accounts;
the handler then resolves the token pair, rejects mismatched mints with
`InvalidTokenAccounts`, performs leg 1 (user account → vault-in custody,
authorized by the `user` signature) then leg 2 (vault-out custody → user
account, authorized by the vault seed tuple plus the stored
`vault_out.bump`), and on success the `close = user` constraint erases
the `Trade` and refunds its rent to `user`.  The source reads
`trade.amount_in` / `trade.amount_out`, fields the declared `Trade`
struct does not have, so the two amounts are explicit arguments here,
standing for the values the source reads off the trade record. -/
def execute_trade (a : ExecuteTradeAccounts) (amount_in amount_out : Nat) :
    Except Err ExecState :=
  if executeTradeAccountsValid a = false then .error .ConstraintViolated
  else if a.token_in_mint ≠ (resolvedPair a).1 ∨ a.token_out_mint ≠ (resolvedPair a).2 then
    .error .InvalidTokenAccounts
  else
    match transfer a.user_token_account_in a.vault_token_account_in
        (.signer a.user) amount_in with
    | .error e => .error e
    | .ok (uin, vin) =>
      match transfer a.vault_token_account_out a.user_token_account_out
          (.pda (vaultSeeds a.market.token_a a.market.token_b (resolvedPair a).2)
            a.vault_out.bump) amount_out with
      | .error e => .error e
      | .ok (vout, uout) =>
        .ok { user_in := uin, vault_in := vin, vault_out := vout, user_out := uout,
              tradeLive := false, rentTo := some a.user }

/-- Observable post-state of a call: the host commits the instruction's
effects only on success and reverts the whole unit of work on failure. -/
def execPost (a : ExecuteTradeAccounts) (amount_in amount_out : Nat) : ExecState :=
  match execute_trade a amount_in amount_out with
  | .ok s => s
  | .error _ => preExecState a

/-- The `Vault` records existing on chain, indexed by address. -/
abbrev VaultTable := List (Pubkey × Vault)

/-- The accounts common to `DepositTokens` and `WithdrawTokens` (the two
structs declare the same account fields and constraints). -/
structure LedgerCtx where
  agent : Agent
  market : Market
  marketAddr : Pubkey
  user : Pubkey
  token_mint : Pubkey
  user_token_account : TokenAccount
  vaultAddr : Pubkey
  vault_token_account : TokenAccount
  deriving DecidableEq, Repr

/-- Anchor account validation shared by `DepositTokens` and
`WithdrawTokens`, in declaration order.  `agent` carries
`has_one = owner`; no account named `owner` is declared in either
struct, and per the struct's own doc comment the intent is that the
signing `user` be the agent's recorded owner, so it is modelled as
`agent.owner = user`.  The `vault` account is resolved from the chain's
vault table at the presented address, then checked against its
`seeds`/`bump` derivation and `has_one = market`; no constraint compares
`vault.token` with `token_mint`. -/
def ledgerAccountsCheck (vt : VaultTable) (c : LedgerCtx) : Except Err Vault :=
  if c.agent.owner ≠ c.user then .error .ConstraintHasOne
  else if c.user_token_account.mint ≠ c.token_mint then .error .ConstraintTokenMint
  else if c.user_token_account.owner ≠ c.user then .error .ConstraintTokenOwner
  else
    match List.lookup c.vaultAddr vt with
    | none => .error .AccountNotInitialized
    | some v =>
      if c.vaultAddr ≠ pdaAddr (vaultSeeds c.market.token_a c.market.token_b c.token_mint) v.bump then
        .error .ConstraintSeeds
      else if v.market ≠ c.marketAddr then .error .ConstraintHasOne
      else if c.vault_token_account.mint ≠ c.token_mint then .error .ConstraintAssociated
      else if c.vault_token_account.owner ≠ c.vaultAddr then .error .ConstraintAssociated
      else .ok v

/-- `deposit_tokens` (`deposit_tokens.rs`): after account validation the
handler rejects a mint that is neither `market.token_a` nor
`market.token_b` with `InvalidTokenMint`, then transfers `amount` from
the user's account to the vault custody account, authorized by the
user's signature.  Returns the updated (user account, custody account)
pair. -/
def deposit_tokens (vt : VaultTable) (c : LedgerCtx) (amount : Nat) :
    Except Err (TokenAccount × TokenAccount) :=
  match ledgerAccountsCheck vt c with
  | .error e => .error e
  | .ok _ =>
    if c.token_mint ≠ c.market.token_a ∧ c.token_mint ≠ c.market.token_b then
      .error .InvalidTokenMint
    else transfer c.user_token_account c.vault_token_account (.signer c.user) amount

/-- `withdraw_tokens` (`withdraw_tokens.rs`): after account validation
the handler immediately transfers `amount` from the vault custody
account to the user's account, authorized by the vault seed tuple plus
the stored bump — unlike `deposit_tokens` it performs no mint-membership
check of its own.  Returns the updated (custody account, user account)
pair. -/
def withdraw_tokens (vt : VaultTable) (c : LedgerCtx) (amount : Nat) :
    Except Err (TokenAccount × TokenAccount) :=
  match ledgerAccountsCheck vt c with
  | .error e => .error e
  | .ok v =>
    transfer c.vault_token_account c.user_token_account
      (.pda (vaultSeeds c.market.token_a c.market.token_b c.token_mint) v.bump) amount

/-- Observable (user account, custody account) pair after a deposit
call: unchanged when the unit of work fails. -/
def depositPost (vt : VaultTable) (c : LedgerCtx) (amount : Nat) :
    TokenAccount × TokenAccount :=
  match deposit_tokens vt c amount with
  | .ok p => p
  | .error _ => (c.user_token_account, c.vault_token_account)

/-- Observable (custody account, user account) pair after a withdraw
call: unchanged when the unit of work fails. -/
def withdrawPost (vt : VaultTable) (c : LedgerCtx) (amount : Nat) :
    TokenAccount × TokenAccount :=
  match withdraw_tokens vt c amount with
  | .ok p => p
  | .error _ => (c.vault_token_account, c.user_token_account)

/-- The creation invariant `initialize_market` establishes for every
`Vault` record: it lives at the address derived from its creating
market's pair and its own `token` field — which is one of the two mints
of that pair — together with its stored bump. -/
def VaultTableWF (vt : VaultTable) : Prop :=
  ∀ p ∈ vt, ∃ a b : Pubkey,
    (p.2.token = a ∨ p.2.token = b) ∧
    p.1 = pdaAddr (vaultSeeds a b p.2.token) p.2.bump

/-- The state read and written by `place_trade`: existing account
addresses, the live `Trade` records, and the lamport balances of the
`agent` account (the declared rent payer) and of the calling user. -/
structure PlaceState where
  used : List Pubkey
  trades : List (Pubkey × Trade)
  agentLamports : Nat
  callerLamports : Nat
  deriving DecidableEq, Repr

/-- Address of the `Trade` PDA: `["trade", agent.key(), market.key()]`
(`place_trade.rs`). -/
def tradeAddrOf (agentAddr marketAddr : Pubkey) : Pubkey :=
  pdaAddr (tradeSeeds agentAddr marketAddr) canonicalBump

/-- `place_trade` (`place_trade.rs`): the accounts struct declares
`agent`, `market`, the `trade` PDA being created with
`init, payer = agent`, and the system program — no signer at all, and no
constraint ties any account to `agent.owner`.  `init` fails when the
derived address is already occupied; rent for the new record is debited
from the `agent` account (the declared payer), never from the calling
user.  The handler stores the three arguments and the bump verbatim.
`signer` is the transaction's fee payer, which nothing inspects. -/
def place_trade (agentAddr marketAddr : Pubkey) (trade_type amount price : Nat)
    (signer : Pubkey) (rent : Nat) (st : PlaceState) : Except Err PlaceState :=
  if tradeAddrOf agentAddr marketAddr ∈ st.used then .error .AccountAlreadyInitialized
  else if st.agentLamports < rent then .error .InsufficientFunds
  else .ok { used := tradeAddrOf agentAddr marketAddr :: st.used,
             trades := (tradeAddrOf agentAddr marketAddr,
               { agent := agentAddr, market := marketAddr, trade_type := trade_type,
                 amount := amount, price := price, bump := canonicalBump }) :: st.trades,
             agentLamports := st.agentLamports - rent,
             callerLamports := st.callerLamports }

/-- The accounts created or read by `initialize_market`: every occupied
address, plus the `Market` and `Vault` records. -/
structure ChainState where
  used : List Pubkey
  markets : List (Pubkey × Market)
  vaults : List (Pubkey × Vault)
  deriving DecidableEq, Repr

/-- `initialize_market` (`initialize_market.rs`): creates the `market`
PDA at `["market", token_a, token_b]` and the two vault PDAs at
`["vault", token_a, token_b, mint]` for `mint = token_a` and
`mint = token_b`, in declaration order; each `init` fails when its
target address is already occupied, including by an account created just
before it in the same call.  The handler stores the pair into `market`
and `(market, mint)` into each vault.  The source has no explicit
`token_a ≠ token_b` check: when the two mints coincide the two vault
PDAs coincide and the second `init` fails. -/
def initialize_market (tokenA tokenB : Pubkey) (st : ChainState) :
    Except Err ChainState :=
  if pdaAddr (marketSeeds tokenA tokenB) canonicalBump ∈ st.used then
    .error .AccountAlreadyInitialized
  else if pdaAddr (vaultSeeds tokenA tokenB tokenA) canonicalBump ∈ st.used ∨
      pdaAddr (vaultSeeds tokenA tokenB tokenA) canonicalBump =
        pdaAddr (marketSeeds tokenA tokenB) canonicalBump then
    .error .AccountAlreadyInitialized
  else if pdaAddr (vaultSeeds tokenA tokenB tokenB) canonicalBump ∈ st.used ∨
      pdaAddr (vaultSeeds tokenA tokenB tokenB) canonicalBump =
        pdaAddr (marketSeeds tokenA tokenB) canonicalBump ∨
      pdaAddr (vaultSeeds tokenA tokenB tokenB) canonicalBump =
        pdaAddr (vaultSeeds tokenA tokenB tokenA) canonicalBump then
    .error .AccountAlreadyInitialized
  else
    .ok { used := pdaAddr (vaultSeeds tokenA tokenB tokenB) canonicalBump ::
                  pdaAddr (vaultSeeds tokenA tokenB tokenA) canonicalBump ::
                  pdaAddr (marketSeeds tokenA tokenB) canonicalBump :: st.used,
          markets := (pdaAddr (marketSeeds tokenA tokenB) canonicalBump,
            { token_a := tokenA, token_b := tokenB, bump := canonicalBump }) :: st.markets,
          vaults := (pdaAddr (vaultSeeds tokenA tokenB tokenA) canonicalBump,
              { market := pdaAddr (marketSeeds tokenA tokenB) canonicalBump,
                token := tokenA, bump := canonicalBump }) ::
            (pdaAddr (vaultSeeds tokenA tokenB tokenB) canonicalBump,
              { market := pdaAddr (marketSeeds tokenA tokenB) canonicalBump,
                token := tokenB, bump := canonicalBump }) :: st.vaults }

/-- States reachable from genesis by `initialize_market` calls.  No
other instruction writes a `Market` record: `register_agent`,
`deposit_tokens`, `withdraw_tokens`, `place_trade` and `execute_trade`
only read markets. -/
inductive MarketReachable : ChainState → Prop
  | genesis : MarketReachable ⟨[], [], []⟩
  | step (a b : Pubkey) (st st' : ChainState) :
      MarketReachable st → initialize_market a b st = .ok st' → MarketReachable st'

/-- Concrete `ExecuteTrade` context for the forced leg-2 failure: the
vault-out custody account holds 3, less than the 5 outbound tokens. -/
def c1ctx : ExecuteTradeAccounts :=
  { trade := { agent := 8, market := 7, trade_type := 0, amount := 0, price := 0, bump := 0 },
    tradeAddr := 10,
    market := { token_a := 1, token_b := 2, bump := 0 },
    marketAddr := 7,
    agent := { owner := 9, bump := 0 },
    agentAddr := 8,
    user := 9,
    token_in_mint := 1,
    token_out_mint := 2,
    user_token_account_in := { mint := 1, owner := 9, amount := 100 },
    user_token_account_out := { mint := 2, owner := 9, amount := 0 },
    vault_in := { market := 7, token := 1, bump := 0 },
    vault_inAddr := pdaAddr (vaultSeeds 1 2 1) 0,
    vault_token_account_in := { mint := 1, owner := pdaAddr (vaultSeeds 1 2 1) 0, amount := 50 },
    vault_out := { market := 7, token := 2, bump := 0 },
    vault_outAddr := pdaAddr (vaultSeeds 1 2 2) 0,
    vault_token_account_out := { mint := 2, owner := pdaAddr (vaultSeeds 1 2 2) 0, amount := 3 } }

/-- Concrete `ExecuteTrade` context with the caller-supplied mints
swapped against a direction-0 trade (token-in is `token_b`). -/
def c3ctx : ExecuteTradeAccounts :=
  { trade := { agent := 8, market := 7, trade_type := 0, amount := 0, price := 0, bump := 0 },
    tradeAddr := 10,
    market := { token_a := 1, token_b := 2, bump := 0 },
    marketAddr := 7,
    agent := { owner := 9, bump := 0 },
    agentAddr := 8,
    user := 9,
    token_in_mint := 2,
    token_out_mint := 1,
    user_token_account_in := { mint := 2, owner := 9, amount := 100 },
    user_token_account_out := { mint := 1, owner := 9, amount := 0 },
    vault_in := { market := 7, token := 2, bump := 0 },
    vault_inAddr := pdaAddr (vaultSeeds 1 2 2) 0,
    vault_token_account_in := { mint := 2, owner := pdaAddr (vaultSeeds 1 2 2) 0, amount := 50 },
    vault_out := { market := 7, token := 1, bump := 0 },
    vault_outAddr := pdaAddr (vaultSeeds 1 2 1) 0,
    vault_token_account_out := { mint := 1, owner := pdaAddr (vaultSeeds 1 2 1) 0, amount := 50 } }

/-- Concrete `ExecuteTrade` context on which both legs succeed. -/
def c4ctx : ExecuteTradeAccounts :=
  { trade := { agent := 8, market := 7, trade_type := 0, amount := 0, price := 0, bump := 0 },
    tradeAddr := 10,
    market := { token_a := 1, token_b := 2, bump := 0 },
    marketAddr := 7,
    agent := { owner := 9, bump := 0 },
    agentAddr := 8,
    user := 9,
    token_in_mint := 1,
    token_out_mint := 2,
    user_token_account_in := { mint := 1, owner := 9, amount := 100 },
    user_token_account_out := { mint := 2, owner := 9, amount := 0 },
    vault_in := { market := 7, token := 1, bump := 0 },
    vault_inAddr := pdaAddr (vaultSeeds 1 2 1) 0,
    vault_token_account_in := { mint := 1, owner := pdaAddr (vaultSeeds 1 2 1) 0, amount := 50 },
    vault_out := { market := 7, token := 2, bump := 0 },
    vault_outAddr := pdaAddr (vaultSeeds 1 2 2) 0,
    vault_token_account_out := { mint := 2, owner := pdaAddr (vaultSeeds 1 2 2) 0, amount := 50 } }

/-- Concrete `ExecuteTrade` context in which the signing `user` (200) is
not the recorded owner (100) of the trade's agent: the signer supplies
token accounts under their own control. -/
def c5ctx : ExecuteTradeAccounts :=
  { trade := { agent := 8, market := 7, trade_type := 0, amount := 0, price := 0, bump := 0 },
    tradeAddr := 10,
    market := { token_a := 1, token_b := 2, bump := 0 },
    marketAddr := 7,
    agent := { owner := 100, bump := 0 },
    agentAddr := 8,
    user := 200,
    token_in_mint := 1,
    token_out_mint := 2,
    user_token_account_in := { mint := 1, owner := 200, amount := 100 },
    user_token_account_out := { mint := 2, owner := 200, amount := 0 },
    vault_in := { market := 7, token := 1, bump := 0 },
    vault_inAddr := pdaAddr (vaultSeeds 1 2 1) 0,
    vault_token_account_in := { mint := 1, owner := pdaAddr (vaultSeeds 1 2 1) 0, amount := 50 },
    vault_out := { market := 7, token := 2, bump := 0 },
    vault_outAddr := pdaAddr (vaultSeeds 1 2 2) 0,
    vault_token_account_out := { mint := 2, owner := pdaAddr (vaultSeeds 1 2 2) 0, amount := 50 } }

/-- Initial state for the concrete `place_trade` calls of claim C2. -/
def c2st0 : PlaceState :=
  { used := [], trades := [], agentLamports := 10, callerLamports := 3 }

/-- Vault table produced by `initialize_market` for the pair `(1, 2)`. -/
def c6vt : VaultTable :=
  [(pdaAddr (vaultSeeds 1 2 1) canonicalBump,
     { market := pdaAddr (marketSeeds 1 2) canonicalBump, token := 1, bump := canonicalBump }),
   (pdaAddr (vaultSeeds 1 2 2) canonicalBump,
     { market := pdaAddr (marketSeeds 1 2) canonicalBump, token := 2, bump := canonicalBump })]

/-- Withdraw context presenting mint 3 to the `(1, 2)` market, with the
existing vault for mint 1 as the `vault` account. -/
def c6ctx : LedgerCtx :=
  { agent := { owner := 9, bump := 0 },
    market := { token_a := 1, token_b := 2, bump := canonicalBump },
    marketAddr := pdaAddr (marketSeeds 1 2) canonicalBump,
    user := 9,
    token_mint := 3,
    user_token_account := { mint := 3, owner := 9, amount := 10 },
    vaultAddr := pdaAddr (vaultSeeds 1 2 1) canonicalBump,
    vault_token_account := { mint := 3, owner := pdaAddr (vaultSeeds 1 2 1) canonicalBump, amount := 10 } }

/-- Vault table holding a vault whose stored market reference (777)
differs from the market account a deposit will present. -/
def c7vt : VaultTable :=
  [(pdaAddr (vaultSeeds 1 2 1) canonicalBump,
     { market := 777, token := 1, bump := canonicalBump })]

/-- Deposit context whose presented market account (at address 55)
differs from the vault's stored market reference. -/
def c7ctx : LedgerCtx :=
  { agent := { owner := 9, bump := 0 },
    market := { token_a := 1, token_b := 2, bump := canonicalBump },
    marketAddr := 55,
    user := 9,
    token_mint := 1,
    user_token_account := { mint := 1, owner := 9, amount := 10 },
    vaultAddr := pdaAddr (vaultSeeds 1 2 1) canonicalBump,
    vault_token_account := { mint := 1, owner := pdaAddr (vaultSeeds 1 2 1) canonicalBump, amount := 10 } }

/-- The chain state after `initialize_market 1 2` from genesis. -/
def c8st1 : ChainState :=
  { used := [pdaAddr (vaultSeeds 1 2 2) canonicalBump,
             pdaAddr (vaultSeeds 1 2 1) canonicalBump,
             pdaAddr (marketSeeds 1 2) canonicalBump],
    markets := [(pdaAddr (marketSeeds 1 2) canonicalBump,
      { token_a := 1, token_b := 2, bump := canonicalBump })],
    vaults := [(pdaAddr (vaultSeeds 1 2 1) canonicalBump,
        { market := pdaAddr (marketSeeds 1 2) canonicalBump, token := 1, bump := canonicalBump }),
      (pdaAddr (vaultSeeds 1 2 2) canonicalBump,
        { market := pdaAddr (marketSeeds 1 2) canonicalBump, token := 2, bump := canonicalBump })] }

/-- Initial state for the concrete `place_trade` calls of claim C9. -/
def c9st0 : PlaceState :=
  { used := [], trades := [], agentLamports := 100, callerLamports := 100 }

/-- The state after `place_trade 5 6 0 10 20` (signer 1, rent 3) on `c9st0`. -/
def c9st1 : PlaceState :=
  { used := [tradeAddrOf 5 6],
    trades := [(tradeAddrOf 5 6,
      { agent := 5, market := 6, trade_type := 0, amount := 10, price := 20,
        bump := canonicalBump })],
    agentLamports := 97, callerLamports := 100 }

/-- Initial state for the concrete `place_trade` calls of claim C10. -/
def c10st0 : PlaceState :=
  { used := [], trades := [], agentLamports := 40, callerLamports := 8 }

theorem encodeList_inj : ∀ l1 l2 : List Nat, encodeList l1 = encodeList l2 → l1 = l2 := by
  intro l1
  induction l1 with
  | nil =>
    intro l2 h
    cases l2 with
    | nil => rfl
    | cons y ys => simp [encodeList] at h
  | cons x xs ih =>
    intro l2 h
    cases l2 with
    | nil => simp [encodeList] at h
    | cons y ys =>
      simp only [encodeList, Nat.add_right_cancel_iff] at h
      obtain ⟨hx, hxs⟩ := Nat.pair_eq_pair.mp h
      rw [hx, ih ys hxs]

theorem pdaAddr_inj {s1 s2 : List Nat} {b1 b2 : Nat}
    (h : pdaAddr s1 b1 = pdaAddr s2 b2) : s1 ++ [b1] = s2 ++ [b2] :=
  encodeList_inj _ _ h

theorem transfer_ok {src dst : TokenAccount} {auth : Authorizer} {amt : Nat}
    {p : TokenAccount × TokenAccount} (h : transfer src dst auth amt = .ok p) :
    auth.key = src.owner ∧ amt ≤ src.amount ∧
    p.1 = { src with amount := src.amount - amt } ∧
    p.2 = { dst with amount := dst.amount + amt } := by
  unfold transfer at h
  split at h
  · exact absurd h (by simp)
  · split at h
    · exact absurd h (by simp)
    · rename_i hauth hfund
      refine ⟨not_ne_iff.mp hauth, Nat.not_lt.mp hfund, ?_, ?_⟩
      · exact congrArg Prod.fst (Except.ok.inj h).symm
      · exact congrArg Prod.snd (Except.ok.inj h).symm

theorem transfer_err {src dst : TokenAccount} {auth : Authorizer} {amt : Nat} {e : Err}
    (h : transfer src dst auth amt = .error e) :
    e = .MissingSignature ∨ e = .InsufficientFunds := by
  unfold transfer at h
  split at h
  · exact Or.inl (Except.error.inj h).symm
  · split at h
    · exact Or.inr (Except.error.inj h).symm
    · exact absurd h (by simp)

theorem lookup_mem {β : Type} {l : List (Pubkey × β)} {k : Pubkey} {v : β}
    (h : List.lookup k l = some v) : (k, v) ∈ l := by
  induction l with
  | nil => simp [List.lookup] at h
  | cons p l ih =>
    obtain ⟨k', v'⟩ := p
    rw [List.lookup] at h
    by_cases hk : k = k'
    · simp [hk] at h
      simp [hk, h]
    · have hbeq : (k == k') = false := beq_false_of_ne hk
      rw [hbeq] at h
      exact List.mem_cons_of_mem _ (ih h)

theorem execute_trade_ok_elim {a : ExecuteTradeAccounts} {ain aout : Nat} {s : ExecState}
    (h : execute_trade a ain aout = .ok s) :
    executeTradeAccountsValid a = true ∧
    a.token_in_mint = (resolvedPair a).1 ∧ a.token_out_mint = (resolvedPair a).2 ∧
    ∃ p q : TokenAccount × TokenAccount,
      transfer a.user_token_account_in a.vault_token_account_in (.signer a.user) ain = .ok p ∧
      transfer a.vault_token_account_out a.user_token_account_out
        (.pda (vaultSeeds a.market.token_a a.market.token_b (resolvedPair a).2)
          a.vault_out.bump) aout = .ok q ∧
      s = { user_in := p.1, user_out := q.2, vault_in := p.2, vault_out := q.1,
            tradeLive := false, rentTo := some a.user } := by
  unfold execute_trade at h
  split at h
  · exact absurd h (by simp)
  · rename_i hval
    have hvt : executeTradeAccountsValid a = true := by
      revert hval; cases executeTradeAccountsValid a <;> simp
    split at h
    · exact absurd h (by simp)
    · rename_i hmm
      push_neg at hmm
      split at h
      · exact absurd h (by simp)
      · rename_i uin vin hp
        split at h
        · exact absurd h (by simp)
        · rename_i vout uout hq
          exact ⟨hvt, hmm.1, hmm.2, (uin, vin), (vout, uout), hp, hq,
            (Except.ok.inj h).symm⟩

/-- C1: the two settlement legs of `execute_trade` form one atomic unit
of work — the observable post-state never shows the user's token-in
balance decremented without the token-out balance incremented by the
matching amount (and the `Trade` record consumed), and any failure
leaves every balance and the `Trade` record unchanged. -/
theorem execute_trade_atomic (a : ExecuteTradeAccounts) (ain aout : Nat) :
    ((execPost a ain aout).user_in.amount < (preExecState a).user_in.amount →
      (execPost a ain aout).user_in.amount + ain = (preExecState a).user_in.amount ∧
      (execPost a ain aout).user_out.amount = (preExecState a).user_out.amount + aout ∧
      (execPost a ain aout).tradeLive = false) ∧
    (∀ e, execute_trade a ain aout = .error e → execPost a ain aout = preExecState a) := by
  have hpost : ∀ e, execute_trade a ain aout = .error e →
      execPost a ain aout = preExecState a := by
    intro e hE
    unfold execPost
    rw [hE]
  refine ⟨?_, hpost⟩
  intro hlt
  unfold execPost at hlt ⊢
  cases hE : execute_trade a ain aout with
  | error e =>
    rw [hE] at hlt
    exact absurd hlt (lt_irrefl _)
  | ok s =>
    obtain ⟨hval, hin, hout, p, q, hp, hq, hs⟩ := execute_trade_ok_elim hE
    obtain ⟨hauth1, hle1, hp1, hp2⟩ := transfer_ok hp
    obtain ⟨hauth2, hle2, hq1, hq2⟩ := transfer_ok hq
    subst hs
    refine ⟨?_, ?_, rfl⟩
    · rw [hp1]
      exact Nat.sub_add_cancel hle1
    · rw [hq2]
      rfl

/-- Witness for C1 at a concrete context: the spec's forced leg-2
failure (the vault-out custody account holds 3 < 5), after which leg 1's
debit is absent from the observable state. -/
theorem execute_trade_atomic_w :
    execute_trade c1ctx 10 5 = .error .InsufficientFunds ∧
    execPost c1ctx 10 5 = preExecState c1ctx :=
  ⟨rfl, (execute_trade_atomic c1ctx 10 5).2 .InsufficientFunds rfl⟩

/-- C3: `execute_trade` resolves the inbound/outbound tokens as
`(token_a, token_b)` for direction 0 and the reverse for direction 1,
and on a validated account set a caller-supplied mint differing from the
resolved pair fails with `InvalidTokenAccounts` before either transfer
leg has any effect. -/
theorem execute_trade_resolution (a : ExecuteTradeAccounts) (ain aout : Nat) :
    (a.trade.trade_type = 0 → resolvedPair a = (a.market.token_a, a.market.token_b)) ∧
    (a.trade.trade_type = 1 → resolvedPair a = (a.market.token_b, a.market.token_a)) ∧
    (executeTradeAccountsValid a = true →
      (a.token_in_mint ≠ (resolvedPair a).1 ∨ a.token_out_mint ≠ (resolvedPair a).2) →
      execute_trade a ain aout = .error .InvalidTokenAccounts ∧
      execPost a ain aout = preExecState a) := by
  refine ⟨fun h => by simp [resolvedPair, h], fun h => by simp [resolvedPair, h],
    fun hval hmm => ?_⟩
  have hE : execute_trade a ain aout = .error .InvalidTokenAccounts := by
    unfold execute_trade
    rw [hval, if_neg (by simp), if_pos hmm]
  refine ⟨hE, ?_⟩
  unfold execPost
  rw [hE]

/-- Witness for C3 at a concrete context: a direction-0 trade presented
with the two mints swapped is rejected with `InvalidTokenAccounts` and
no balance moves. -/
theorem execute_trade_resolution_w :
    resolvedPair c3ctx = (1, 2) ∧
    execute_trade c3ctx 1 1 = .error .InvalidTokenAccounts ∧
    execPost c3ctx 1 1 = preExecState c3ctx :=
  ⟨(execute_trade_resolution c3ctx 1 1).1 rfl,
   ((execute_trade_resolution c3ctx 1 1).2.2 rfl (Or.inl (by decide))).1,
   ((execute_trade_resolution c3ctx 1 1).2.2 rfl (Or.inl (by decide))).2⟩

/-- C4: on every successful `execute_trade`, leg 1 moves exactly the
trade's `amount_in` from the user's token-in account (whose authority is
the signing user) into the token-in vault custody account, leg 2 moves
exactly the trade's `amount_out` from the token-out vault custody
account — whose authority is the address derived from the vault creation
seed tuple plus the stored bump byte — to the user's token-out account,
and the `Trade` record is closed with its rent refunded. -/
theorem execute_trade_success_legs (a : ExecuteTradeAccounts) (ain aout : Nat)
    (s : ExecState) (h : execute_trade a ain aout = .ok s) :
    s.user_in.amount + ain = a.user_token_account_in.amount ∧
    s.vault_in.amount = a.vault_token_account_in.amount + ain ∧
    a.user_token_account_in.owner = a.user ∧
    s.vault_out.amount + aout = a.vault_token_account_out.amount ∧
    s.user_out.amount = a.user_token_account_out.amount + aout ∧
    a.vault_token_account_out.owner =
      pdaAddr (vaultSeeds a.market.token_a a.market.token_b a.token_out_mint)
        a.vault_out.bump ∧
    s.tradeLive = false ∧ s.rentTo = some a.user := by
  obtain ⟨hval, hin, hout, p, q, hp, hq, hs⟩ := execute_trade_ok_elim h
  obtain ⟨hauth1, hle1, hp1, hp2⟩ := transfer_ok hp
  obtain ⟨hauth2, hle2, hq1, hq2⟩ := transfer_ok hq
  subst hs
  refine ⟨?_, ?_, hauth1.symm, ?_, ?_, ?_, rfl, rfl⟩
  · rw [hp1]
    exact Nat.sub_add_cancel hle1
  · rw [hp2]
  · rw [hq1]
    exact Nat.sub_add_cancel hle2
  · rw [hq2]
  · rw [hout]
    exact hauth2.symm

/-- Witness for C4 at a concrete successful settlement. -/
theorem execute_trade_success_legs_w :
    (execPost c4ctx 10 5).tradeLive = false ∧
    (execPost c4ctx 10 5).rentTo = some c4ctx.user ∧
    (execPost c4ctx 10 5).user_in.amount + 10 = c4ctx.user_token_account_in.amount :=
  have h : execute_trade c4ctx 10 5 = .ok (execPost c4ctx 10 5) := rfl
  have r := execute_trade_success_legs c4ctx 10 5 (execPost c4ctx 10 5) h
  ⟨r.2.2.2.2.2.2.1, r.2.2.2.2.2.2.2, r.1⟩

/-- C5: an accepted `execute_trade` invocation whose signing user is not
the recorded owner of the trade's agent — the accounts context checks
`trade.agent` against the presented agent but never compares the signer
with `agent.owner`, so the signer settles the trade into their own token
accounts and collects the closed `Trade` record's rent. -/
theorem execute_trade_no_owner_check :
    c5ctx.user ≠ c5ctx.agent.owner ∧
    c5ctx.user_token_account_out.owner = c5ctx.user ∧
    execute_trade c5ctx 10 5 = .ok (execPost c5ctx 10 5) ∧
    (execPost c5ctx 10 5).user_out.amount = c5ctx.user_token_account_out.amount + 5 ∧
    (execPost c5ctx 10 5).rentTo = some c5ctx.user :=
  ⟨by decide, rfl, rfl, rfl, rfl⟩

theorem ledgerAccountsCheck_ok {vt : VaultTable} {c : LedgerCtx} {v : Vault}
    (h : ledgerAccountsCheck vt c = .ok v) :
    c.agent.owner = c.user ∧
    c.user_token_account.mint = c.token_mint ∧
    c.user_token_account.owner = c.user ∧
    List.lookup c.vaultAddr vt = some v ∧
    c.vaultAddr = pdaAddr (vaultSeeds c.market.token_a c.market.token_b c.token_mint) v.bump ∧
    v.market = c.marketAddr ∧
    c.vault_token_account.mint = c.token_mint ∧
    c.vault_token_account.owner = c.vaultAddr := by
  unfold ledgerAccountsCheck at h
  split at h
  · exact absurd h (by simp)
  · rename_i h1
    split at h
    · exact absurd h (by simp)
    · rename_i h2
      split at h
      · exact absurd h (by simp)
      · rename_i h3
        split at h
        · exact absurd h (by simp)
        · rename_i v' hlk
          split at h
          · exact absurd h (by simp)
          · rename_i h5
            split at h
            · exact absurd h (by simp)
            · rename_i h6
              split at h
              · exact absurd h (by simp)
              · rename_i h7
                split at h
                · exact absurd h (by simp)
                · rename_i h8
                  have hv : v' = v := Except.ok.inj h
                  subst hv
                  exact ⟨not_ne_iff.mp h1, not_ne_iff.mp h2, not_ne_iff.mp h3, hlk,
                    not_ne_iff.mp h5, not_ne_iff.mp h6, not_ne_iff.mp h7, not_ne_iff.mp h8⟩

theorem ledgerAccountsCheck_err {vt : VaultTable} {c : LedgerCtx} {e : Err}
    (h : ledgerAccountsCheck vt c = .error e) :
    e = .ConstraintHasOne ∨ e = .ConstraintTokenMint ∨ e = .ConstraintTokenOwner ∨
    e = .AccountNotInitialized ∨ e = .ConstraintSeeds ∨ e = .ConstraintAssociated := by
  unfold ledgerAccountsCheck at h
  split at h
  · exact Or.inl (Except.error.inj h).symm
  · split at h
    · exact Or.inr (Or.inl (Except.error.inj h).symm)
    · split at h
      · exact Or.inr (Or.inr (Or.inl (Except.error.inj h).symm))
      · split at h
        · exact Or.inr (Or.inr (Or.inr (Or.inl (Except.error.inj h).symm)))
        · split at h
          · exact Or.inr (Or.inr (Or.inr (Or.inr (Or.inl (Except.error.inj h).symm))))
          · split at h
            · exact Or.inl (Except.error.inj h).symm
            · split at h
              · exact Or.inr (Or.inr (Or.inr (Or.inr (Or.inr (Except.error.inj h).symm))))
              · split at h
                · exact Or.inr (Or.inr (Or.inr (Or.inr (Or.inr (Except.error.inj h).symm))))
                · exact absurd h (by simp)

/-- C2 (counterexample): `place_trade` with direction 2 succeeds and
creates the `Trade` record with `trade_type = 2` stored verbatim,
instead of failing with `InvalidTradeType` as claimed. -/
theorem place_trade_type2_accepted :
    place_trade 5 6 2 50 7 9 1 c2st0 =
      .ok { used := [tradeAddrOf 5 6],
            trades := [(tradeAddrOf 5 6,
              { agent := 5, market := 6, trade_type := 2, amount := 50, price := 7,
                bump := canonicalBump })],
            agentLamports := 9, callerLamports := 3 } := rfl

/-- C2 (amended): `place_trade` performs no validation of the direction
argument — `InvalidTradeType` is never raised — and with direction 2 and
any amount it succeeds whenever the trade address is unoccupied and the
payer funded, storing the arguments verbatim. -/
theorem place_trade_no_type_check (agentAddr marketAddr amount price signer rent : Nat)
    (st : PlaceState)
    (hfree : tradeAddrOf agentAddr marketAddr ∉ st.used)
    (hfund : rent ≤ st.agentLamports) :
    (∀ (a m tt am pr s r : Nat) (st' : PlaceState),
      place_trade a m tt am pr s r st' ≠ .error .InvalidTradeType) ∧
    place_trade agentAddr marketAddr 2 amount price signer rent st =
      .ok { used := tradeAddrOf agentAddr marketAddr :: st.used,
            trades := (tradeAddrOf agentAddr marketAddr,
              { agent := agentAddr, market := marketAddr, trade_type := 2,
                amount := amount, price := price, bump := canonicalBump }) :: st.trades,
            agentLamports := st.agentLamports - rent,
            callerLamports := st.callerLamports } := by
  constructor
  · intro a m tt am pr s r st' hbad
    unfold place_trade at hbad
    split at hbad
    · exact absurd (Except.error.inj hbad) (by decide)
    · split at hbad
      · exact absurd (Except.error.inj hbad) (by decide)
      · exact absurd hbad (by simp)
  · unfold place_trade
    rw [if_neg hfree, if_neg (Nat.not_lt.mpr hfund)]

/-- Witness for C2 (amended) at a concrete call. -/
theorem place_trade_no_type_check_w :
    place_trade 5 6 2 50 7 9 1 c2st0 ≠ .error Err.InvalidTradeType :=
  (place_trade_no_type_check 5 6 50 7 9 1 c2st0 (by decide) (by decide)).1 5 6 2 50 7 9 1 c2st0

/-- C6 (counterexample): a withdraw call presenting mint 3 to the market
`(1, 2)` fails during vault account validation with a seeds mismatch,
not with the claimed `InvalidTokenMint`. -/
theorem withdraw_bad_mint_error_code :
    withdraw_tokens c6vt c6ctx 5 = .error .ConstraintSeeds ∧
    Err.ConstraintSeeds ≠ Err.InvalidTokenMint :=
  ⟨rfl, by decide⟩

/-- C6 (amended): `withdraw_tokens` performs no mint-membership check of
its own (it never raises `InvalidTokenMint`); over any vault table
satisfying the creation invariant, a call whose mint is neither
`market.token_a` nor `market.token_b` fails during account validation
and leaves both balances unchanged. -/
theorem withdraw_no_mint_check (vt : VaultTable) (c : LedgerCtx) (amount : Nat)
    (hwf : VaultTableWF vt)
    (ha : c.token_mint ≠ c.market.token_a) (hb : c.token_mint ≠ c.market.token_b) :
    (withdraw_tokens vt c amount).isOk = false ∧
    withdrawPost vt c amount = (c.vault_token_account, c.user_token_account) ∧
    (∀ (vt' : VaultTable) (c' : LedgerCtx) (amt' : Nat),
      withdraw_tokens vt' c' amt' ≠ .error .InvalidTokenMint) := by
  have hnochk : ∀ (vt' : VaultTable) (c' : LedgerCtx) (amt' : Nat),
      withdraw_tokens vt' c' amt' ≠ .error .InvalidTokenMint := by
    intro vt' c' amt' hbad
    unfold withdraw_tokens at hbad
    split at hbad
    · rename_i e hchk
      have he : e = Err.InvalidTokenMint := Except.error.inj hbad
      subst he
      exact absurd (ledgerAccountsCheck_err hchk) (by decide)
    · exact absurd (transfer_err hbad) (by decide)
  have hfail : ∀ v, ledgerAccountsCheck vt c ≠ .ok v := by
    intro v hok
    obtain ⟨h1, h2, h3, hlk, h5, h6, h7, h8⟩ := ledgerAccountsCheck_ok hok
    obtain ⟨x, y, htok, haddr⟩ := hwf (c.vaultAddr, v) (lookup_mem hlk)
    have hlist := pdaAddr_inj (h5.symm.trans haddr)
    simp [vaultSeeds] at hlist
    rcases htok with h | h
    · exact ha (by rw [hlist.2.2, h, ← hlist.1])
    · exact hb (by rw [hlist.2.2, h, ← hlist.2.1])
  cases hchk : ledgerAccountsCheck vt c with
  | ok v => exact absurd hchk (hfail v)
  | error e =>
    refine ⟨?_, ?_, hnochk⟩
    · unfold withdraw_tokens
      rw [hchk]
      rfl
    · unfold withdrawPost withdraw_tokens
      rw [hchk]

/-- Witness for C6 (amended) at a concrete call on the vault table the
market `(1, 2)` creates. -/
theorem withdraw_no_mint_check_w :
    (withdraw_tokens c6vt c6ctx 5).isOk = false ∧
    withdrawPost c6vt c6ctx 5 = (c6ctx.vault_token_account, c6ctx.user_token_account) :=
  have hwf : VaultTableWF c6vt := by
    intro p hp
    simp [c6vt] at hp
    rcases hp with h | h
    · rw [h]
      exact ⟨1, 2, Or.inl rfl, rfl⟩
    · rw [h]
      exact ⟨1, 2, Or.inr rfl, rfl⟩
  have r := withdraw_no_mint_check c6vt c6ctx 5 hwf (by decide) (by decide)
  ⟨r.1, r.2.1⟩

/-- C7 (counterexample): a deposit presenting a vault whose stored
market reference (777) differs from the presented market (55) fails the
framework's has-one constraint, not the claimed `InvalidVault`. -/
theorem deposit_vault_mismatch_error_code :
    deposit_tokens c7vt c7ctx 5 = .error .ConstraintHasOne ∧
    Err.ConstraintHasOne ≠ Err.InvalidVault :=
  ⟨rfl, by decide⟩

/-- C7 (amended): no instruction raises `InvalidVault`.  A deposit whose
vault's stored market reference differs from the presented market fails
with the framework's has-one violation (with no transfer); the
custodied-token consistency is not checked at runtime but follows from
the seeds derivation together with the creation invariant: any vault
accepted by account validation over a creation-invariant table stores
exactly the presented mint. -/
theorem deposit_vault_consistency (vt : VaultTable) (c : LedgerCtx) (amount : Nat) (v : Vault)
    (h1 : c.agent.owner = c.user)
    (h2 : c.user_token_account.mint = c.token_mint)
    (h3 : c.user_token_account.owner = c.user)
    (h4 : List.lookup c.vaultAddr vt = some v)
    (h5 : c.vaultAddr = pdaAddr (vaultSeeds c.market.token_a c.market.token_b c.token_mint) v.bump)
    (h6 : v.market ≠ c.marketAddr) :
    deposit_tokens vt c amount = .error .ConstraintHasOne ∧
    depositPost vt c amount = (c.user_token_account, c.vault_token_account) ∧
    (∀ (vt' : VaultTable) (c' : LedgerCtx) (amt' : Nat),
      deposit_tokens vt' c' amt' ≠ .error .InvalidVault) ∧
    (∀ (vt' : VaultTable) (c' : LedgerCtx) (v' : Vault), VaultTableWF vt' →
      ledgerAccountsCheck vt' c' = .ok v' → v'.token = c'.token_mint) := by
  have hchk : ledgerAccountsCheck vt c = .error .ConstraintHasOne := by
    unfold ledgerAccountsCheck
    rw [if_neg (not_ne_iff.mpr h1), if_neg (not_ne_iff.mpr h2),
      if_neg (not_ne_iff.mpr h3), h4]
    simp [h5, h6]
  have hnoIV : ∀ (vt' : VaultTable) (c' : LedgerCtx) (amt' : Nat),
      deposit_tokens vt' c' amt' ≠ .error .InvalidVault := by
    intro vt' c' amt' hbad
    unfold deposit_tokens at hbad
    split at hbad
    · rename_i e hchk'
      have he : e = Err.InvalidVault := Except.error.inj hbad
      subst he
      exact absurd (ledgerAccountsCheck_err hchk') (by decide)
    · split at hbad
      · exact absurd (Except.error.inj hbad) (by decide)
      · exact absurd (transfer_err hbad) (by decide)
  have htok : ∀ (vt' : VaultTable) (c' : LedgerCtx) (v' : Vault), VaultTableWF vt' →
      ledgerAccountsCheck vt' c' = .ok v' → v'.token = c'.token_mint := by
    intro vt' c' v' hwf hok
    obtain ⟨-, -, -, hlk, h5', -, -, -⟩ := ledgerAccountsCheck_ok hok
    obtain ⟨x, y, htk, haddr⟩ := hwf (c'.vaultAddr, v') (lookup_mem hlk)
    have hlist := pdaAddr_inj (h5'.symm.trans haddr)
    simp [vaultSeeds] at hlist
    exact hlist.2.2.symm
  refine ⟨?_, ?_, hnoIV, htok⟩
  · unfold deposit_tokens
    rw [hchk]
  · unfold depositPost deposit_tokens
    rw [hchk]

/-- Witness for C7 (amended) at a concrete mismatched deposit. -/
theorem deposit_vault_consistency_w :
    deposit_tokens c7vt c7ctx 5 = .error Err.ConstraintHasOne ∧
    deposit_tokens c7vt c7ctx 5 ≠ .error Err.InvalidVault :=
  have r := deposit_vault_consistency c7vt c7ctx 5
    { market := 777, token := 1, bump := canonicalBump } rfl rfl rfl rfl rfl (by decide)
  ⟨r.1, r.2.2.1 c7vt c7ctx 5⟩

/-- C8: `initialize_market` never produces a market with
`token_a = token_b` — when the two presented mints coincide the two
vault PDAs coincide and the second `init` fails — and every `Market`
record in a reachable state satisfies `token_a ≠ token_b`. -/
theorem market_tokens_distinct :
    (∀ (a b : Pubkey) (st st' : ChainState),
      initialize_market a b st = .ok st' → a ≠ b) ∧
    (∀ st, MarketReachable st → ∀ p ∈ st.markets, p.2.token_a ≠ p.2.token_b) := by
  have h1 : ∀ (a b : Pubkey) (st st' : ChainState),
      initialize_market a b st = .ok st' → a ≠ b := by
    intro a b st st' h hab
    subst hab
    unfold initialize_market at h
    split at h
    · exact absurd h (by simp)
    · split at h
      · exact absurd h (by simp)
      · split at h
        · exact absurd h (by simp)
        · rename_i h3
          exact h3 (Or.inr (Or.inr rfl))
  refine ⟨h1, ?_⟩
  intro st hreach
  induction hreach with
  | genesis =>
    intro p hp
    simp at hp
  | step a b st0 st1 hr hok ih =>
    intro p hp
    have hne := h1 a b st0 st1 hok
    unfold initialize_market at hok
    split at hok
    · exact absurd hok (by simp)
    · split at hok
      · exact absurd hok (by simp)
      · split at hok
        · exact absurd hok (by simp)
        · have hst := (Except.ok.inj hok).symm
          rw [hst] at hp
          rcases List.mem_cons.mp hp with heq | hmem
          · rw [heq]
            exact hne
          · exact ih p hmem

/-- Witness for C8 at the concrete pair `(1, 2)`. -/
theorem market_tokens_distinct_w :
    (1 : Pubkey) ≠ 2 ∧
    ({ token_a := 1, token_b := 2, bump := canonicalBump } : Market).token_a ≠
      ({ token_a := 1, token_b := 2, bump := canonicalBump } : Market).token_b :=
  have hok : initialize_market 1 2 ⟨[], [], []⟩ = .ok c8st1 := rfl
  ⟨market_tokens_distinct.1 1 2 ⟨[], [], []⟩ c8st1 hok,
   market_tokens_distinct.2 c8st1
     (MarketReachable.step 1 2 ⟨[], [], []⟩ c8st1 MarketReachable.genesis hok)
     (pdaAddr (marketSeeds 1 2) canonicalBump,
       { token_a := 1, token_b := 2, bump := canonicalBump })
     (List.Mem.head _)⟩

/-- C9: the trade address is the pure function
`pdaAddr (tradeSeeds agent market)` — distinct agents on the same market
never collide — a successful `place_trade` stores the record at that
address, and a second `place_trade` by the same agent on the same market
before settlement fails instead of overwriting. -/
theorem trade_address_per_agent_market (agentAddr marketAddr a1 a2 : Pubkey)
    (tt am pr s r tt' am' pr' s' r' : Nat) (st st1 : PlaceState)
    (hne : a1 ≠ a2)
    (hok : place_trade agentAddr marketAddr tt am pr s r st = .ok st1) :
    tradeAddrOf a1 marketAddr ≠ tradeAddrOf a2 marketAddr ∧
    List.lookup (tradeAddrOf agentAddr marketAddr) st1.trades =
      some { agent := agentAddr, market := marketAddr, trade_type := tt,
             amount := am, price := pr, bump := canonicalBump } ∧
    place_trade agentAddr marketAddr tt' am' pr' s' r' st1 =
      .error .AccountAlreadyInitialized := by
  have hcol : tradeAddrOf a1 marketAddr ≠ tradeAddrOf a2 marketAddr := by
    intro h
    have hlist := pdaAddr_inj h
    simp [tradeSeeds] at hlist
    exact hne hlist
  unfold place_trade at hok
  split at hok
  · exact absurd hok (by simp)
  · split at hok
    · exact absurd hok (by simp)
    · have hst := (Except.ok.inj hok).symm
      refine ⟨hcol, ?_, ?_⟩
      · rw [hst]
        simp [List.lookup]
      · unfold place_trade
        rw [hst]
        rw [if_pos (List.mem_cons_self _ _)]

/-- Witness for C9 at concrete placements. -/
theorem trade_address_per_agent_market_w :
    tradeAddrOf 4 6 ≠ tradeAddrOf 5 6 ∧
    place_trade 5 6 1 2 3 9 1 c9st1 = .error Err.AccountAlreadyInitialized :=
  have hok : place_trade 5 6 0 10 20 1 3 c9st0 = .ok c9st1 := rfl
  have r := trade_address_per_agent_market 5 6 4 5 0 10 20 1 3 1 2 3 9 1 c9st0 c9st1
    (by decide) hok
  ⟨r.1, r.2.2⟩

/-- C10: `place_trade` requires no signature tied to the agent's
recorded owner — its outcome is independent of the transaction signer,
any caller succeeds on a free trade address with a funded agent, and the
new record's rent is debited from the `agent` account while the calling
user's lamports are untouched. -/
theorem place_trade_no_signer_auth (agentAddr marketAddr tt am pr rent : Nat)
    (st : PlaceState)
    (hfree : tradeAddrOf agentAddr marketAddr ∉ st.used)
    (hfund : rent ≤ st.agentLamports) :
    (∀ s1 s2 : Pubkey, place_trade agentAddr marketAddr tt am pr s1 rent st =
      place_trade agentAddr marketAddr tt am pr s2 rent st) ∧
    (∀ s : Pubkey, (place_trade agentAddr marketAddr tt am pr s rent st).isOk = true) ∧
    (∀ (s : Pubkey) (st1 : PlaceState),
      place_trade agentAddr marketAddr tt am pr s rent st = .ok st1 →
      st1.agentLamports + rent = st.agentLamports ∧
      st1.callerLamports = st.callerLamports) := by
  refine ⟨fun s1 s2 => rfl, ?_, ?_⟩
  · intro s
    unfold place_trade
    rw [if_neg hfree, if_neg (Nat.not_lt.mpr hfund)]
    rfl
  · intro s st1 hok
    unfold place_trade at hok
    rw [if_neg hfree, if_neg (Nat.not_lt.mpr hfund)] at hok
    have hst := (Except.ok.inj hok).symm
    rw [hst]
    exact ⟨Nat.sub_add_cancel hfund, rfl⟩

/-- Witness for C10 at concrete signers 111 and 222. -/
theorem place_trade_no_signer_auth_w :
    place_trade 5 6 0 10 20 111 4 c10st0 = place_trade 5 6 0 10 20 222 4 c10st0 ∧
    (place_trade 5 6 0 10 20 111 4 c10st0).isOk = true :=
  have r := place_trade_no_signer_auth 5 6 0 10 20 4 c10st0 (by decide) (by decide)
  ⟨r.1 111 222, r.2.1 111⟩

end AgentMarketSim
